import Mathlib

/-!
Verification development for the swipefish card generator
(src/img/raw/compose_swipefish_card_from_csv.py).

The script is embedded shallowly:

* Python floats are modelled as exact rationals.  All quantities flowing
  into comparisons and into Python int conversions in this script stay far
  from the knife edge where double rounding could flip a comparison, so the
  exact-rational model agrees with the float execution on every concrete
  input used below.  Rationals are represented by the unnormalised pair
  type PyRat (kernel-reducible, unlike the gcd-normalising Rat), with a
  homomorphism PyRat.toRat into the mathematical rationals for proofs.
* Python int() truncation toward zero is pyInt.
* PIL text measurement is an external input: a FontEnv record supplies,
  for the title font at a given size, the textbbox width/height of a text,
  and for the body font the anchor-relative bbox bottom and the width of a
  line.  PIL bboxes are anchor relative: textbbox (x, y) equals the bbox at
  the origin shifted by (x, y); the embedding bakes in exactly that shift.
* textwrap.fill is modelled for taglines that are whitespace separated
  words each no longer than the wrap width (no hyphen splitting, no
  breaking of overlong words); every concrete tagline used below is in
  that class.
* PIL Image.open sizes are inputs (aw, ah); Image.resize raises a
  ValueError whenever a component of the target size is below one,
  modelled by returning none; a zero-size illustration would make the
  Python scale computation divide by zero, also modelled as none.
* Strings are handled at the character-list level (ASCII envelope of the
  Python semantics of str.upper, str.strip, and the regexes used).
-/

set_option maxRecDepth 4000

/-! ## Exact rationals with kernel-computable arithmetic -/

/-- Unnormalised rational number: numerator over a natural denominator.
Operations below keep denominators positive whenever inputs have positive
denominators and divisors are nonzero, which holds on every path of the
embedded script. -/
structure PyRat where
  num : ℤ
  den : ℕ
deriving Repr, DecidableEq, Inhabited

/-- Interpretation of a PyRat as a mathematical rational. -/
def PyRat.toRat (x : PyRat) : ℚ := (x.num : ℚ) / (x.den : ℚ)

/-- Embed an integer. -/
def intRat (a : ℤ) : PyRat := ⟨a, 1⟩

/-- Embed a natural number. -/
def natRat (a : ℕ) : PyRat := ⟨(a : ℤ), 1⟩

/-- Product of two rationals. -/
def ratMul (x y : PyRat) : PyRat := ⟨x.num * y.num, x.den * y.den⟩

/-- Quotient of two rationals (sign moved into the numerator so the
denominator stays natural). -/
def ratDiv (x y : PyRat) : PyRat :=
  if 0 ≤ y.num then ⟨x.num * (y.den : ℤ), x.den * y.num.toNat⟩
  else ⟨-(x.num * (y.den : ℤ)), x.den * (-y.num).toNat⟩

/-- Comparison by cross multiplication (valid for positive denominators). -/
def ratLeB (x y : PyRat) : Bool := decide (x.num * (y.den : ℤ) ≤ y.num * (x.den : ℤ))

/-- Python min of two numbers: the first argument when it is not larger. -/
def ratMin (x y : PyRat) : PyRat := if ratLeB x y then x else y

/-- Python int() of a rational: truncation toward zero. -/
def pyInt (x : PyRat) : ℤ :=
  if 0 ≤ x.num then x.num / (x.den : ℤ) else -((-x.num) / (x.den : ℤ))

/-- Truncation toward zero on mathematical rationals, the specification of
pyInt. -/
def pyIntQ (q : ℚ) : ℤ := if 0 ≤ q then ⌊q⌋ else -⌊-q⌋

lemma pyIntQ_intCast (m : ℤ) : pyIntQ (m : ℚ) = m := by
  unfold pyIntQ
  split
  · exact Int.floor_intCast m
  · rw [← Int.cast_neg, Int.floor_intCast]
    omega

lemma pyIntQ_le_of_le {q : ℚ} {m : ℤ} (h : q ≤ (m : ℚ)) : pyIntQ q ≤ m := by
  unfold pyIntQ
  split
  · calc ⌊q⌋ ≤ ⌊(m : ℚ)⌋ := Int.floor_mono h
      _ = m := Int.floor_intCast m
  · have h2 : ((-m : ℤ) : ℚ) ≤ -q := by push_cast; linarith
    have h3 := Int.le_floor.mpr h2
    omega

lemma pyIntQ_nonneg {q : ℚ} (h : 0 ≤ q) : 0 ≤ pyIntQ q := by
  unfold pyIntQ
  rw [if_pos h]
  exact Int.floor_nonneg.mpr h

lemma pyIntQ_le_self {q : ℚ} (h : 0 ≤ q) : (pyIntQ q : ℚ) ≤ q := by
  unfold pyIntQ
  rw [if_pos h]
  exact Int.floor_le q

/-- pyInt agrees with the mathematical truncation whenever the denominator
is positive. -/
lemma pyInt_eq_pyIntQ (x : PyRat) (hd : 0 < x.den) : pyInt x = pyIntQ x.toRat := by
  have hdQ : (0 : ℚ) < (x.den : ℚ) := by exact_mod_cast hd
  unfold pyInt PyRat.toRat
  by_cases hn : 0 ≤ x.num
  · have hq : 0 ≤ (x.num : ℚ) / (x.den : ℚ) := by positivity
    rw [if_pos hn]
    unfold pyIntQ
    rw [if_pos hq, Rat.floor_intCast_div_natCast]
  · have hnQ : (x.num : ℚ) < 0 := by exact_mod_cast not_le.mp hn
    have hq : (x.num : ℚ) / (x.den : ℚ) < 0 := div_neg_of_neg_of_pos hnQ hdQ
    rw [if_neg hn]
    unfold pyIntQ
    rw [if_neg (not_le.mpr hq)]
    have h4 : -((x.num : ℚ) / (x.den : ℚ)) = ((-x.num : ℤ) : ℚ) / (x.den : ℚ) := by
      push_cast
      ring
    rw [h4, Rat.floor_intCast_div_natCast]

lemma toRat_intRat (a : ℤ) : (intRat a).toRat = (a : ℚ) := by
  unfold intRat PyRat.toRat
  simp

lemma toRat_natRat (a : ℕ) : (natRat a).toRat = (a : ℚ) := by
  unfold natRat PyRat.toRat
  simp

lemma toRat_ratMul (x y : PyRat) : (ratMul x y).toRat = x.toRat * y.toRat := by
  unfold ratMul PyRat.toRat
  push_cast
  rw [div_mul_div_comm]

lemma toRat_ratDiv (x y : PyRat) : (ratDiv x y).toRat = x.toRat / y.toRat := by
  unfold ratDiv PyRat.toRat
  have key : ∀ a b c d : ℚ, a * d / (b * c) = a / b / (c / d) := by
    intro a b c d
    rw [div_div_eq_mul_div, div_mul_eq_mul_div, div_div]
  by_cases h : 0 ≤ y.num
  · rw [if_pos h]
    have hc : ((y.num.toNat : ℕ) : ℚ) = (y.num : ℚ) := by
      exact_mod_cast Int.toNat_of_nonneg h
    push_cast
    rw [hc, key]
  · rw [if_neg h]
    have hc : (((-y.num).toNat : ℕ) : ℚ) = ((-y.num : ℤ) : ℚ) := by
      exact_mod_cast Int.toNat_of_nonneg (by omega : (0 : ℤ) ≤ -y.num)
    push_cast at hc ⊢
    rw [hc, mul_neg, neg_div_neg_eq, key]

lemma ratLeB_iff {x y : PyRat} (hx : 0 < x.den) (hy : 0 < y.den) :
    ratLeB x y = true ↔ x.toRat ≤ y.toRat := by
  unfold ratLeB PyRat.toRat
  have hxQ : (0 : ℚ) < (x.den : ℚ) := by exact_mod_cast hx
  have hyQ : (0 : ℚ) < (y.den : ℚ) := by exact_mod_cast hy
  rw [decide_eq_true_iff, div_le_div_iff₀ hxQ hyQ]
  constructor
  · intro h
    exact_mod_cast h
  · intro h
    exact_mod_cast h

lemma toRat_ratMin {x y : PyRat} (hx : 0 < x.den) (hy : 0 < y.den) :
    (ratMin x y).toRat = min x.toRat y.toRat := by
  unfold ratMin
  by_cases h : ratLeB x y = true
  · rw [if_pos h, min_eq_left ((ratLeB_iff hx hy).mp h)]
  · have h2 : y.toRat ≤ x.toRat := by
      have h3 := (not_iff_not.mpr (ratLeB_iff hx hy)).mp h
      linarith [not_le.mp h3]
    rw [if_neg h, min_eq_right h2]

lemma ratMin_den {x y : PyRat} (hx : 0 < x.den) (hy : 0 < y.den) :
    0 < (ratMin x y).den := by
  unfold ratMin
  split
  · exact hx
  · exact hy

/-! ## Character and string helpers (ASCII envelope of the Python semantics) -/

/-- ASCII model of Python str.upper on one character. -/
def pyUpperChar (c : Char) : Char :=
  if 'a' ≤ c ∧ c ≤ 'z' then Char.ofNat (c.toNat - 32) else c

/-- ASCII model of Python str.upper. -/
def pyUpper (s : String) : String := String.mk (s.toList.map pyUpperChar)

/-- The whitespace class of Python (regex backslash-s and str.split), ASCII part. -/
def pyIsSpace (c : Char) : Bool :=
  c == ' ' || c == '\t' || c == '\n' || c == '\r' || c == '\x0b' || c == '\x0c'

/-- Python regex word-character class (ASCII part): alphanumeric or underscore. -/
def isWordChar (c : Char) : Bool := c.isAlphanum || c == '_'

/-- Python str.strip: drop leading and trailing whitespace. -/
def pyStrip (s : String) : String :=
  String.mk (((s.toList.dropWhile pyIsSpace).reverse.dropWhile pyIsSpace).reverse)

/-! ## Tagline wrapping (model of textwrap.fill, source line 208)

textwrap.fill is modelled for taglines made of whitespace separated words
each no longer than the wrap width: the greedy packing below coincides
with textwrap on that class. -/

/-- Split a character list into maximal nonempty runs of non-whitespace
characters (Python str.split with no separator, which is what textwrap
effectively does after replacing each whitespace character by a space). -/
def wordsAux : List Char → List Char → List String
  | [], acc => if acc.isEmpty then [] else [String.mk acc.reverse]
  | c :: cs, acc =>
    if pyIsSpace c then
      (if acc.isEmpty then wordsAux cs [] else String.mk acc.reverse :: wordsAux cs [])
    else wordsAux cs (c :: acc)

/-- Greedy line filling: grow the current line while the next word still
fits in the width budget, counting one separating space. -/
def wrapGo (width : ℕ) (line : String) : List String → List String
  | [] => [line]
  | w :: ws =>
    if line.length + 1 + w.length ≤ width then wrapGo width (line ++ " " ++ w) ws
    else line :: wrapGo width w ws

/-- Greedy wrap of a word list. -/
def wrapWords (width : ℕ) : List String → List String
  | [] => []
  | w :: ws => wrapGo width w ws

/-- Lines of the wrapped tagline, as the script sees them: textwrap.fill
followed by split on the newline character.  An empty wrap result yields a
single empty line, because splitting the empty fill output on newlines
gives one empty string. -/
def taglineLines (tagline : String) (width : ℕ) : List String :=
  let ls := wrapWords width (wordsAux tagline.toList [])
  if ls.isEmpty then [""] else ls

lemma taglineLines_ne_nil (tagline : String) (width : ℕ) :
    taglineLines tagline width ≠ [] := by
  simp only [taglineLines]
  split
  · simp
  · rename_i h
    simpa [List.isEmpty_iff] using h

/-! ## Tagline measurement loops (source lines 218-233, 368-380, 427-452)

The loops advance a y cursor: for every line the bbox bottom is the cursor
plus the anchor-relative bottom of that line, the running maximum starts
at zero, and the cursor moves past the bbox bottom plus the 10 pixel line
spacing except after the last line. -/

/-- Final y cursor of the measurement/drawing loop. -/
def tagEndY (off : String → ℕ) : List String → ℤ → ℤ
  | [], y => y
  | l :: ls, y => tagEndY off ls (if ls.isEmpty then y + off l else y + off l + 10)

/-- Running maximum of the bbox bottoms seen by the loop (initial value is
the accumulator m; the loops in the script start it at zero). -/
def tagMaxB (off : String → ℕ) : List String → ℤ → ℤ → ℤ
  | [], _, m => m
  | l :: ls, y, m =>
    tagMaxB off ls (if ls.isEmpty then y + off l else y + off l + 10) (max m (y + off l))

lemma le_tagEndY (off : String → ℕ) (ls : List String) (y : ℤ) :
    y ≤ tagEndY off ls y := by
  induction ls generalizing y with
  | nil => simp [tagEndY]
  | cons l ls ih =>
    unfold tagEndY
    refine le_trans ?_ (ih _)
    split <;> omega

lemma tagEndY_shift (off : String → ℕ) (ls : List String) (a y : ℤ) :
    tagEndY off ls (a + y) = a + tagEndY off ls y := by
  induction ls generalizing y with
  | nil => simp [tagEndY]
  | cons l ls ih =>
    unfold tagEndY
    split
    · rw [add_assoc, ih]
    · rw [add_assoc, add_assoc, ih, add_assoc]

lemma tagMaxB_eq_max (off : String → ℕ) (ls : List String) (hne : ls ≠ []) (y m : ℤ) :
    tagMaxB off ls y m = max m (tagEndY off ls y) := by
  induction ls generalizing y m with
  | nil => exact absurd rfl hne
  | cons l ls ih =>
    unfold tagMaxB tagEndY
    rcases List.eq_nil_or_concat ls with h | h
    · subst h
      simp [tagMaxB, tagEndY]
    · have hne2 : ls ≠ [] := by
        rcases h with ⟨a, b, rfl⟩
        simp
      have hemp : ls.isEmpty = false := by simpa [List.isEmpty_iff] using hne2
      rw [hemp]
      simp only [Bool.false_eq_true, if_false]
      rw [ih hne2]
      have hle : y + (off l : ℤ) ≤ tagEndY off ls (y + (off l : ℤ) + 10) := by
        calc y + (off l : ℤ) ≤ y + (off l : ℤ) + 10 := by omega
          _ ≤ tagEndY off ls (y + (off l : ℤ) + 10) := le_tagEndY off ls _
      rw [max_assoc, max_eq_right hle]

/-! ## The card layout engine (compose_card, source lines 142-478)

Fixed constants of the script: canvas 1080 x 1920, horizontal padding 200,
title font size 120, body font size 64, top padding 400, bottom padding
80, minimum gaps 30, target bottom limit 170, line spacing 10, tagline
safety margin 40, minimum tagline margin 30.  They appear below as
literals at the places where the source uses them. -/

/-- External text measurement (PIL fonts).  titleDim text size gives the
width and height of the textbbox of the text in the title font at the
given size; bodyBottom line gives bbox bottom of the line in the body font
anchored at the origin; bodyWidth line gives its bbox width. -/
structure FontEnv where
  titleDim : String → ℕ → ℕ × ℕ
  bodyBottom : String → ℕ
  bodyWidth : String → ℕ

/-- Outcome of the title fitting step. -/
structure TitleFit where
  fontSize : ℕ
  tw : ℕ
  th : ℕ
deriving Repr, DecidableEq, Inhabited

/-- Title fitting, source lines 178-200: measure the upper-cased title at
size 120 against the padded width 680; when it overflows, rescale the font
by 680 over the measured width and re-measure. -/
def fitTitle (env : FontEnv) (persona_title : String) : TitleFit :=
  if 680 < (env.titleDim (pyUpper persona_title) 120).1 then
    TitleFit.mk
      ((pyInt (ratMul (natRat 120)
        (ratDiv (natRat 680) (natRat (env.titleDim (pyUpper persona_title) 120).1)))).toNat)
      (env.titleDim (pyUpper persona_title)
        ((pyInt (ratMul (natRat 120)
          (ratDiv (natRat 680) (natRat (env.titleDim (pyUpper persona_title) 120).1)))).toNat)).1
      (env.titleDim (pyUpper persona_title)
        ((pyInt (ratMul (natRat 120)
          (ratDiv (natRat 680) (natRat (env.titleDim (pyUpper persona_title) 120).1)))).toNat)).2
  else
    TitleFit.mk 120 (env.titleDim (pyUpper persona_title) 120).1
      (env.titleDim (pyUpper persona_title) 120).2

/-- Bottom of the computed title box, source line 203:
title_y + int(th * 0.85) with title_y = 400. -/
def titleBottomOf (env : FontEnv) (persona_title : String) : ℤ :=
  400 + pyInt (ratMul (natRat (fitTitle env persona_title).th) ⟨85, 100⟩)

/-- Wrap width, source lines 206-207:
int((1080 - 200 * 2) / (64 * 0.6)), which is 17. -/
def charsPerLine : ℕ :=
  (pyInt (ratDiv (natRat (1080 - 200 * 2)) (ratMul (natRat 64) ⟨6, 10⟩))).toNat

/-- Wrapped tagline lines, source lines 208-209. -/
def taglineLinesOf (tagline : String) : List String := taglineLines tagline charsPerLine

/-- Measured tagline height, source lines 218-233: the maximum of the
final y cursor and the running bbox-bottom maximum, plus the safety margin
40.  The re-measurement at lines 368-380 computes the same value. -/
def tagHeightOf (env : FontEnv) (tagline : String) : ℤ :=
  max (tagEndY env.bodyBottom (taglineLinesOf tagline) 0)
    (tagMaxB env.bodyBottom (taglineLinesOf tagline) 0 0) + 40

/-- Gaps, bottom padding and illustration height budget selected by the
scarce-space adjustment. -/
structure GapPlan where
  g1 : ℤ
  g2 : ℤ
  bp : ℤ
  maxh : ℤ
deriving Repr, DecidableEq, Inhabited

/-- Adjusted gap, source lines 266-268: max(10, int(30 * (avail / 60))). -/
def adjustedGap (avail : ℤ) : ℤ :=
  max 10 (pyInt (ratMul (natRat 30) (ratDiv (intRat avail) (natRat 60))))

/-- Gap and budget selection, source lines 246-273.  The image height
budget is 1920 minus title bottom, both gaps, the tagline height and the
target bottom limit 170; when it falls below 200 the gaps are scaled to
the available room (floor 10 each) against bottom padding 80, or, when
even that is negative, the bottom padding is dropped to 20. -/
def gapsPlan (title_bottom tagH : ℤ) : GapPlan :=
  if 1920 - title_bottom - 30 - 30 - tagH - 170 < 200 then
    (if 0 < 1920 - (title_bottom + tagH + 80) - 200 then
      GapPlan.mk (adjustedGap (1920 - (title_bottom + tagH + 80) - 200))
        (adjustedGap (1920 - (title_bottom + tagH + 80) - 200)) 80
        (1920 - title_bottom - adjustedGap (1920 - (title_bottom + tagH + 80) - 200)
          - adjustedGap (1920 - (title_bottom + tagH + 80) - 200) - tagH - 80)
    else GapPlan.mk 30 30 20 (1920 - title_bottom - 30 - 30 - tagH - 20))
  else GapPlan.mk 30 30 80 (1920 - title_bottom - 30 - 30 - tagH - 170)

/-- The plan computed for a run. -/
def planOf (env : FontEnv) (persona_title tagline : String) : GapPlan :=
  gapsPlan (titleBottomOf env persona_title) (tagHeightOf env tagline)

/-- Uniform scale factor, source lines 276-278:
min(680 / aw, maxh / ah), the width ratio first. -/
def scaleFor (aw ah : ℕ) (maxh : ℤ) : PyRat :=
  ratMin (ratDiv (natRat 680) (natRat aw)) (ratDiv (intRat maxh) (natRat ah))

/-- Resized width, source line 280: int(aw * scale). -/
def resizeW (aw ah : ℕ) (maxh : ℤ) : ℤ := pyInt (ratMul (natRat aw) (scaleFor aw ah maxh))

/-- Resized height, source line 280: int(ah * scale). -/
def resizeH (aw ah : ℕ) (maxh : ℤ) : ℤ := pyInt (ratMul (natRat ah) (scaleFor aw ah maxh))

/-- Current illustration size and bottom padding while the correction
steps run. -/
structure ArtState where
  w : ℤ
  h : ℤ
  bp : ℤ
deriving Repr, DecidableEq, Inhabited

/-- Overflow correction, source lines 296-320: when the image bottom
exceeds 1920 - gap - tagline height - bottom padding, resize against the
tighter budget; if that budget is under 100 first drop the bottom padding
to 20. -/
def shrink2 (aw ah : ℕ) (illusTop g2 tagH : ℤ) (st : ArtState) : ArtState :=
  if 1920 - g2 - tagH - st.bp < illusTop + st.h then
    (if (1920 - g2 - tagH - st.bp) - illusTop < 100 then
      ArtState.mk (resizeW aw ah ((1920 - g2 - tagH - 20) - illusTop))
        (resizeH aw ah ((1920 - g2 - tagH - 20) - illusTop)) 20
    else
      ArtState.mk (resizeW aw ah ((1920 - g2 - tagH - st.bp) - illusTop))
        (resizeH aw ah ((1920 - g2 - tagH - st.bp) - illusTop)) st.bp)
  else st

/-- Final verification shrink, source lines 322-338: when the expected
tagline end exceeds 1920 - bottom padding, resize so the image bottom
leaves room for the tagline, provided the resulting bottom stays below the
image top. -/
def shrink3 (aw ah : ℕ) (illusTop g2 tagH : ℤ) (st : ArtState) : ArtState :=
  if 1920 - st.bp < (illusTop + st.h) + g2 + tagH then
    (if illusTop < ((1920 - st.bp - g2) - tagH) then
      ArtState.mk (resizeW aw ah (((1920 - st.bp - g2) - tagH) - illusTop))
        (resizeH aw ah (((1920 - st.bp - g2) - tagH) - illusTop)) st.bp
    else st)
  else st

/-- Tagline start position, source lines 382-412.  The image was already
composited when this code runs, so the resize inside the innermost branch
only moves the bookkeeping bottom used for the tagline position; it does
not change the drawn image. -/
def taglineStart (aw ah : ℕ) (illusTop g2 tagH : ℤ) (st : ArtState) : ℤ :=
  if 1920 - st.bp < ((illusTop + st.h) + g2) + tagH then
    (if (1920 - st.bp) - tagH < (illusTop + st.h) + 10 then
      (if illusTop < ((1920 - st.bp - 10) - tagH) then
        (illusTop + resizeH aw ah (((1920 - st.bp - 10) - tagH) - illusTop)) + 10
      else (illusTop + st.h) + 10)
    else (1920 - st.bp) - tagH)
  else (illusTop + st.h) + g2

/-- Final clamp, source lines 417-421: when the tagline would end past
1920 - bottom padding - 30, pull its start up to end exactly there. -/
def clampStart (bp tagH start : ℤ) : ℤ :=
  if (1920 - bp) - 30 < start + tagH then ((1920 - bp) - 30) - tagH else start

/-- The computed layout of one successful compose_card run: the title box
bottom as the script computes it, the gaps and bottom padding in force,
the image budget, the drawn (composited) image rectangle, and the tagline
extent as drawn. -/
structure Layout where
  titleFontSize : ℕ
  titleW : ℕ
  titleH : ℕ
  titleBottom : ℤ
  g1 : ℤ
  g2 : ℤ
  bottomPad : ℤ
  maxArtH : ℤ
  imageX : ℤ
  imageY : ℤ
  imageW : ℤ
  imageH : ℤ
  imageBottom : ℤ
  tagTotal : ℤ
  taglineTop : ℤ
  taglineBottom : ℤ
deriving Repr, DecidableEq, Inhabited

/-- Image top, source line 292: title bottom plus the title-image gap. -/
def illusTopOf (env : FontEnv) (persona_title tagline : String) : ℤ :=
  titleBottomOf env persona_title + (planOf env persona_title tagline).g1

/-- First resize of the illustration, source lines 276-281. -/
def initialArt (env : FontEnv) (persona_title tagline : String) (aw ah : ℕ) : ArtState :=
  ArtState.mk (resizeW aw ah (planOf env persona_title tagline).maxh)
    (resizeH aw ah (planOf env persona_title tagline).maxh)
    (planOf env persona_title tagline).bp

/-- Illustration state at compositing time (source line 340): after the
corrections of lines 296-338. -/
def finalArt (env : FontEnv) (persona_title tagline : String) (aw ah : ℕ) : ArtState :=
  shrink3 aw ah (illusTopOf env persona_title tagline) (planOf env persona_title tagline).g2
    (tagHeightOf env tagline)
    (shrink2 aw ah (illusTopOf env persona_title tagline) (planOf env persona_title tagline).g2
      (tagHeightOf env tagline) (initialArt env persona_title tagline aw ah))

/-- Tagline start after placement and final clamp, source lines 382-421. -/
def startFOf (env : FontEnv) (persona_title tagline : String) (aw ah : ℕ) : ℤ :=
  clampStart (finalArt env persona_title tagline aw ah).bp (tagHeightOf env tagline)
    (taglineStart aw ah (illusTopOf env persona_title tagline)
      (planOf env persona_title tagline).g2 (tagHeightOf env tagline)
      (finalArt env persona_title tagline aw ah))

/-- The layout record assembled by a run that performs every step.  The
image x position is computed from the first resize (source line 289) and
is never recomputed, and the composited image is the one of line 340. -/
def composeLayout (env : FontEnv) (persona_title tagline : String) (aw ah : ℕ) : Layout :=
  Layout.mk (fitTitle env persona_title).fontSize (fitTitle env persona_title).tw
    (fitTitle env persona_title).th (titleBottomOf env persona_title)
    (planOf env persona_title tagline).g1 (planOf env persona_title tagline).g2
    (finalArt env persona_title tagline aw ah).bp (planOf env persona_title tagline).maxh
    (Int.fdiv (1080 - (initialArt env persona_title tagline aw ah).w) 2)
    (illusTopOf env persona_title tagline)
    (finalArt env persona_title tagline aw ah).w (finalArt env persona_title tagline aw ah).h
    (illusTopOf env persona_title tagline + (finalArt env persona_title tagline aw ah).h)
    (tagHeightOf env tagline)
    (startFOf env persona_title tagline aw ah)
    (max (tagEndY env.bodyBottom (taglineLinesOf tagline) (startFOf env persona_title tagline aw ah))
      (tagMaxB env.bodyBottom (taglineLinesOf tagline) (startFOf env persona_title tagline aw ah) 0))

/-- The layout engine, source lines 142-478.  A run fails (raises) when
the illustration has a zero dimension (ZeroDivisionError in the scale
computation) or when a component of the first resize target is below one
(PIL Image.resize rejects width or height under one pixel, so both zero
and negative components abort); otherwise the run completes and returns
its layout. -/
def compose_card (env : FontEnv) (persona_title tagline : String) (aw ah : ℕ) :
    Option Layout :=
  if aw = 0 ∨ ah = 0 then none
  else if (initialArt env persona_title tagline aw ah).w < 1 ∨
      (initialArt env persona_title tagline aw ah).h < 1 then none
  else some (composeLayout env persona_title tagline aw ah)

/-! ## Arithmetic facts about the layout engine -/

lemma scaleFor_den {aw ah : ℕ} (haw : aw ≠ 0) (hah : ah ≠ 0) (maxh : ℤ) :
    0 < (scaleFor aw ah maxh).den := by
  unfold scaleFor
  refine ratMin_den ?_ ?_
  · simp only [ratDiv, natRat]
    rw [if_pos (by exact_mod_cast Nat.zero_le aw)]
    simpa using Nat.pos_of_ne_zero haw
  · simp only [ratDiv, natRat, intRat]
    rw [if_pos (by exact_mod_cast Nat.zero_le ah)]
    simpa using Nat.pos_of_ne_zero hah

lemma scaleFor_toRat {aw ah : ℕ} (haw : aw ≠ 0) (hah : ah ≠ 0) (maxh : ℤ) :
    (scaleFor aw ah maxh).toRat = min ((680 : ℚ) / (aw : ℚ)) ((maxh : ℚ) / (ah : ℚ)) := by
  unfold scaleFor
  rw [toRat_ratMin, toRat_ratDiv, toRat_ratDiv, toRat_natRat, toRat_natRat, toRat_natRat,
    toRat_intRat]
  · norm_num
  · simp only [ratDiv, natRat]
    rw [if_pos (by exact_mod_cast Nat.zero_le aw)]
    simpa using Nat.pos_of_ne_zero haw
  · simp only [ratDiv, natRat, intRat]
    rw [if_pos (by exact_mod_cast Nat.zero_le ah)]
    simpa using Nat.pos_of_ne_zero hah

lemma resizeH_toRat {aw ah : ℕ} (haw : aw ≠ 0) (hah : ah ≠ 0) (maxh : ℤ) :
    resizeH aw ah maxh =
      pyIntQ ((ah : ℚ) * min ((680 : ℚ) / (aw : ℚ)) ((maxh : ℚ) / (ah : ℚ))) := by
  unfold resizeH
  rw [pyInt_eq_pyIntQ _ (by
    simpa [ratMul, natRat] using scaleFor_den haw hah maxh)]
  rw [toRat_ratMul, toRat_natRat, scaleFor_toRat haw hah]

lemma resizeW_toRat {aw ah : ℕ} (haw : aw ≠ 0) (hah : ah ≠ 0) (maxh : ℤ) :
    resizeW aw ah maxh =
      pyIntQ ((aw : ℚ) * min ((680 : ℚ) / (aw : ℚ)) ((maxh : ℚ) / (ah : ℚ))) := by
  unfold resizeW
  rw [pyInt_eq_pyIntQ _ (by
    simpa [ratMul, natRat] using scaleFor_den haw hah maxh)]
  rw [toRat_ratMul, toRat_natRat, scaleFor_toRat haw hah]

/-- The resized height never exceeds the height budget: either the
height ratio is the chosen scale and the product is exactly the budget, or
the width ratio is smaller and the product is below the budget. -/
lemma resizeH_le {aw ah : ℕ} (haw : aw ≠ 0) (hah : ah ≠ 0) (maxh : ℤ) :
    resizeH aw ah maxh ≤ maxh := by
  rw [resizeH_toRat haw hah]
  have hahQ : (0 : ℚ) < (ah : ℚ) := by exact_mod_cast Nat.pos_of_ne_zero hah
  have hcancel : (ah : ℚ) * ((maxh : ℚ) / (ah : ℚ)) = (maxh : ℚ) := by
    field_simp
  rcases le_total ((680 : ℚ) / (aw : ℚ)) ((maxh : ℚ) / (ah : ℚ)) with h | h
  · rw [min_eq_left h]
    refine pyIntQ_le_of_le ?_
    calc (ah : ℚ) * ((680 : ℚ) / (aw : ℚ)) ≤ (ah : ℚ) * ((maxh : ℚ) / (ah : ℚ)) := by
          exact mul_le_mul_of_nonneg_left h (le_of_lt hahQ)
      _ = (maxh : ℚ) := hcancel
  · rw [min_eq_right h, hcancel, pyIntQ_intCast]

lemma le_pyIntQ_of_le {q : ℚ} {m : ℤ} (hm : (m : ℚ) ≤ q) (h0 : 0 ≤ q) :
    m ≤ pyIntQ q := by
  unfold pyIntQ
  rw [if_pos h0]
  exact Int.le_floor.mpr hm

/-- When the illustration already fits its budget on both axes (no wider
than 680 and no taller than the height budget), the scale is at least one
and neither resized dimension drops below the original one. -/
lemma scaleFor_one_le {aw ah : ℕ} (haw : aw ≠ 0) (hah : ah ≠ 0) {maxh : ℤ}
    (hwle : aw ≤ 680) (hhle : (ah : ℤ) ≤ maxh) :
    (1 : ℚ) ≤ min ((680 : ℚ) / (aw : ℚ)) ((maxh : ℚ) / (ah : ℚ)) := by
  have hawQ : (0 : ℚ) < (aw : ℚ) := by exact_mod_cast Nat.pos_of_ne_zero haw
  have hahQ : (0 : ℚ) < (ah : ℚ) := by exact_mod_cast Nat.pos_of_ne_zero hah
  refine le_min ?_ ?_
  · rw [le_div_iff₀ hawQ]
    have h1 : (aw : ℚ) ≤ 680 := by exact_mod_cast hwle
    linarith
  · rw [le_div_iff₀ hahQ]
    have h1 : (ah : ℚ) ≤ (maxh : ℚ) := by exact_mod_cast hhle
    linarith

lemma resizeH_ge {aw ah : ℕ} (haw : aw ≠ 0) (hah : ah ≠ 0) {maxh : ℤ}
    (hwle : aw ≤ 680) (hhle : (ah : ℤ) ≤ maxh) : (ah : ℤ) ≤ resizeH aw ah maxh := by
  rw [resizeH_toRat haw hah]
  have hs := scaleFor_one_le haw hah hwle hhle
  have hahQ : (0 : ℚ) ≤ (ah : ℚ) := by positivity
  refine le_pyIntQ_of_le ?_ ?_
  · push_cast
    nlinarith
  · nlinarith

lemma resizeW_ge {aw ah : ℕ} (haw : aw ≠ 0) (hah : ah ≠ 0) {maxh : ℤ}
    (hwle : aw ≤ 680) (hhle : (ah : ℤ) ≤ maxh) : (aw : ℤ) ≤ resizeW aw ah maxh := by
  rw [resizeW_toRat haw hah]
  have hs := scaleFor_one_le haw hah hwle hhle
  have hawQ : (0 : ℚ) ≤ (aw : ℚ) := by positivity
  refine le_pyIntQ_of_le ?_ ?_
  · push_cast
    nlinarith
  · nlinarith

/-- The height budget plus the image top never exceeds the bottom
allowance 1920 - gap - tagline height - bottom padding: in the main branch
the slack is 90 (target limit 170 against padding 80); in the two
adjustment branches the two sides are equal by construction. -/
lemma gapsPlan_bound (tb tagH : ℤ) :
    tb + (gapsPlan tb tagH).g1 + (gapsPlan tb tagH).maxh ≤
      1920 - (gapsPlan tb tagH).g2 - tagH - (gapsPlan tb tagH).bp := by
  unfold gapsPlan
  split
  · split <;> simp only [GapPlan.mk.injEq] <;> omega
  · simp only [GapPlan.mk.injEq]
    omega

lemma gapsPlan_bp (tb tagH : ℤ) :
    (gapsPlan tb tagH).bp = 80 ∨ (gapsPlan tb tagH).bp = 20 := by
  unfold gapsPlan
  split
  · split
    · left; rfl
    · right; rfl
  · left; rfl

lemma shrink2_id (aw ah : ℕ) (illusTop g2 tagH : ℤ) (st : ArtState)
    (h : illusTop + st.h ≤ 1920 - g2 - tagH - st.bp) :
    shrink2 aw ah illusTop g2 tagH st = st := by
  unfold shrink2
  rw [if_neg (not_lt.mpr h)]

lemma shrink3_id (aw ah : ℕ) (illusTop g2 tagH : ℤ) (st : ArtState)
    (h : (illusTop + st.h) + g2 + tagH ≤ 1920 - st.bp) :
    shrink3 aw ah illusTop g2 tagH st = st := by
  unfold shrink3
  rw [if_neg (not_lt.mpr h)]

lemma taglineStart_eq (aw ah : ℕ) (illusTop g2 tagH : ℤ) (st : ArtState)
    (h : ((illusTop + st.h) + g2) + tagH ≤ 1920 - st.bp) :
    taglineStart aw ah illusTop g2 tagH st = (illusTop + st.h) + g2 := by
  unfold taglineStart
  rw [if_neg (not_lt.mpr h)]

/-- The fundamental bound: the image as first resized already fits the
bottom allowance, so the corrective branches of lines 302-338 and 389-412
never fire. -/
lemma initialArt_fits (env : FontEnv) (persona_title tagline : String) {aw ah : ℕ}
    (haw : aw ≠ 0) (hah : ah ≠ 0) :
    illusTopOf env persona_title tagline + (initialArt env persona_title tagline aw ah).h ≤
      1920 - (planOf env persona_title tagline).g2 - tagHeightOf env tagline -
        (initialArt env persona_title tagline aw ah).bp := by
  have h1 := resizeH_le haw hah (planOf env persona_title tagline).maxh
  have h2 := gapsPlan_bound (titleBottomOf env persona_title) (tagHeightOf env tagline)
  simp only [initialArt, illusTopOf, planOf] at *
  omega

lemma finalArt_eq (env : FontEnv) (persona_title tagline : String) {aw ah : ℕ}
    (haw : aw ≠ 0) (hah : ah ≠ 0) :
    finalArt env persona_title tagline aw ah = initialArt env persona_title tagline aw ah := by
  have hfit := initialArt_fits env persona_title tagline haw hah
  unfold finalArt
  rw [shrink2_id _ _ _ _ _ _ hfit]
  refine shrink3_id _ _ _ _ _ _ (by omega)

lemma startFOf_eq (env : FontEnv) (persona_title tagline : String) {aw ah : ℕ}
    (haw : aw ≠ 0) (hah : ah ≠ 0) :
    startFOf env persona_title tagline aw ah =
      clampStart (planOf env persona_title tagline).bp (tagHeightOf env tagline)
        ((illusTopOf env persona_title tagline +
          (initialArt env persona_title tagline aw ah).h) +
          (planOf env persona_title tagline).g2) := by
  have hfit := initialArt_fits env persona_title tagline haw hah
  unfold startFOf
  rw [finalArt_eq env persona_title tagline haw hah,
    taglineStart_eq _ _ _ _ _ _ (by omega)]
  simp only [initialArt]

/-- Inversion of a successful run. -/
lemma compose_card_inv {env : FontEnv} {persona_title tagline : String} {aw ah : ℕ}
    {L : Layout} (h : compose_card env persona_title tagline aw ah = some L) :
    aw ≠ 0 ∧ ah ≠ 0 ∧ L = composeLayout env persona_title tagline aw ah := by
  unfold compose_card at h
  by_cases h1 : aw = 0 ∨ ah = 0
  · rw [if_pos h1] at h
    exact absurd h (by simp)
  · rw [if_neg h1] at h
    push_neg at h1
    by_cases h2 : (initialArt env persona_title tagline aw ah).w < 1 ∨
        (initialArt env persona_title tagline aw ah).h < 1
    · rw [if_pos h2] at h
      exact absurd h (by simp)
    · rw [if_neg h2] at h
      exact ⟨h1.1, h1.2, (Option.some.injEq _ _).mp h.symm⟩

lemma clampStart_add_le (bp tagH start : ℤ) :
    clampStart bp tagH start + tagH ≤ (1920 - bp) - 30 := by
  unfold clampStart
  split <;> omega

/-- The drawn tagline always ends at least 70 pixels above
1920 - bottom padding, hence inside the canvas bottom allowance. -/
lemma composeLayout_tagBottom_le (env : FontEnv) (persona_title tagline : String)
    {aw ah : ℕ} (haw : aw ≠ 0) (hah : ah ≠ 0) :
    (composeLayout env persona_title tagline aw ah).taglineBottom ≤ 1840 := by
  have hne : taglineLinesOf tagline ≠ [] := taglineLines_ne_nil tagline charsPerLine
  have hmax0 : tagMaxB env.bodyBottom (taglineLinesOf tagline) 0 0 =
      max 0 (tagEndY env.bodyBottom (taglineLinesOf tagline) 0) :=
    tagMaxB_eq_max env.bodyBottom (taglineLinesOf tagline) hne 0 0
  have hmaxS : tagMaxB env.bodyBottom (taglineLinesOf tagline)
      (startFOf env persona_title tagline aw ah) 0 =
      max 0 (tagEndY env.bodyBottom (taglineLinesOf tagline)
        (startFOf env persona_title tagline aw ah)) :=
    tagMaxB_eq_max env.bodyBottom (taglineLinesOf tagline) hne _ 0
  have hshift : tagEndY env.bodyBottom (taglineLinesOf tagline)
      (startFOf env persona_title tagline aw ah) =
      startFOf env persona_title tagline aw ah +
        tagEndY env.bodyBottom (taglineLinesOf tagline) 0 := by
    simpa using tagEndY_shift env.bodyBottom (taglineLinesOf tagline)
      (startFOf env persona_title tagline aw ah) 0
  have hclamp : startFOf env persona_title tagline aw ah + tagHeightOf env tagline ≤
      (1920 - (finalArt env persona_title tagline aw ah).bp) - 30 := by
    unfold startFOf
    exact clampStart_add_le _ _ _
  have hbp : (finalArt env persona_title tagline aw ah).bp =
      (planOf env persona_title tagline).bp := by
    rw [finalArt_eq env persona_title tagline haw hah]
    rfl
  have hbps : (planOf env persona_title tagline).bp = 80 ∨
      (planOf env persona_title tagline).bp = 20 :=
    gapsPlan_bp (titleBottomOf env persona_title) (tagHeightOf env tagline)
  have htagH : tagHeightOf env tagline =
      max (tagEndY env.bodyBottom (taglineLinesOf tagline) 0)
        (tagMaxB env.bodyBottom (taglineLinesOf tagline) 0 0) + 40 := rfl
  rw [htagH, hmax0] at hclamp
  simp only [composeLayout]
  rw [hmaxS, hshift]
  omega

/-- C1 (amended): for every successful layout run, the title box bottom
plus the title-image gap never exceeds the image top, and the drawn
tagline ends inside the canvas minus the bottom padding; the image-tagline
part of the invariant is the one that can fail (see the counterexample
below). -/
theorem compose_card_surviving_invariant :
    ∀ (env : FontEnv) (persona_title tagline : String) (aw ah : ℕ) (L : Layout),
      compose_card env persona_title tagline aw ah = some L →
      L.titleBottom + L.g1 ≤ L.imageY ∧ L.taglineBottom ≤ 1920 - 80 := by
  intro env persona_title tagline aw ah L h
  obtain ⟨haw, hah, hL⟩ := compose_card_inv h
  subst hL
  refine ⟨?_, ?_⟩
  · simp only [composeLayout, illusTopOf]
    exact le_refl _
  · have hb := composeLayout_tagBottom_le env persona_title tagline haw hah
    omega

/-- C2: in every successful run, after the overflow-correction step the
constraint image bottom + gap + tagline height at most canvas height
minus the (possibly reduced) bottom padding holds. -/
theorem compose_card_bottom_constraint :
    ∀ (env : FontEnv) (persona_title tagline : String) (aw ah : ℕ) (L : Layout),
      compose_card env persona_title tagline aw ah = some L →
      L.imageBottom + L.g2 + L.tagTotal ≤ 1920 - L.bottomPad := by
  intro env persona_title tagline aw ah L h
  obtain ⟨haw, hah, hL⟩ := compose_card_inv h
  subst hL
  have hfit := initialArt_fits env persona_title tagline haw hah
  simp only [composeLayout]
  rw [finalArt_eq env persona_title tagline haw hah]
  omega

/-- C5: in every successful run the composited illustration is the first
resize: both dimensions come from the single scale factor
min(680 / aw, maxh / ah), the image is horizontally centered by floor
division, placed at the top of its budgeted region, and its bottom is top
plus height. -/
theorem illustration_uniform_scale :
    ∀ (env : FontEnv) (persona_title tagline : String) (aw ah : ℕ) (L : Layout),
      compose_card env persona_title tagline aw ah = some L →
      L.imageW = pyIntQ ((aw : ℚ) * min ((680 : ℚ) / (aw : ℚ)) ((L.maxArtH : ℚ) / (ah : ℚ))) ∧
      L.imageH = pyIntQ ((ah : ℚ) * min ((680 : ℚ) / (aw : ℚ)) ((L.maxArtH : ℚ) / (ah : ℚ))) ∧
      L.imageX = Int.fdiv (1080 - L.imageW) 2 ∧
      L.imageY = L.titleBottom + L.g1 ∧
      L.imageBottom = L.imageY + L.imageH := by
  intro env persona_title tagline aw ah L h
  obtain ⟨haw, hah, hL⟩ := compose_card_inv h
  subst hL
  simp only [composeLayout, illusTopOf]
  rw [finalArt_eq env persona_title tagline haw hah]
  simp only [initialArt]
  exact ⟨resizeW_toRat haw hah _, resizeH_toRat haw hah _, trivial, trivial, trivial⟩

/-- C3 (amended): compose_card never fails because of tagline overlap:
the only aborts are a zero-size illustration and a first resize target
with a component below one pixel; in particular whenever the
illustration has nonzero dimensions, is no wider than the padded width
680, and no taller than its height budget, the run completes and
renders, whatever the tagline placement turns out to be. -/
theorem compose_card_never_layout_fails :
    ∀ (env : FontEnv) (persona_title tagline : String) (aw ah : ℕ),
      aw ≠ 0 → ah ≠ 0 → aw ≤ 680 →
      (ah : ℤ) ≤ (planOf env persona_title tagline).maxh →
      (compose_card env persona_title tagline aw ah).isSome = true := by
  intro env persona_title tagline aw ah haw hah hwle hhle
  have h1 : ¬(aw = 0 ∨ ah = 0) := by
    push_neg
    exact ⟨haw, hah⟩
  have hw := resizeW_ge haw hah hwle hhle
  have hh := resizeH_ge haw hah hwle hhle
  have hawZ : (1 : ℤ) ≤ (aw : ℤ) := by
    exact_mod_cast Nat.pos_of_ne_zero haw
  have hahZ : (1 : ℤ) ≤ (ah : ℤ) := by
    exact_mod_cast Nat.pos_of_ne_zero hah
  have h2 : ¬((initialArt env persona_title tagline aw ah).w < 1 ∨
      (initialArt env persona_title tagline aw ah).h < 1) := by
    simp only [initialArt]
    omega
  unfold compose_card
  rw [if_neg h1, if_neg h2]
  rfl

/-! ## Concrete runs: counterexamples and witnesses

The font environments below are concrete external measurement oracles: a
plausible body font whose 17-character lines have a constant bbox bottom,
and a title font with a fixed title bbox.  The numbers were chosen so the
final clamp of source lines 417-421 fires. -/

/-- Oracle for the overlap counterexample: title bbox 600 x 150 at every
size, body line bbox bottom 73, body line width 650. -/
def envC1 : FontEnv := ⟨fun _ _ => (600, 150), fun _ => 73, fun _ => 650⟩

/-- Thirteen words of seventeen characters: wraps to thirteen lines at
width 17. -/
def tagC1 : String :=
  "aaaaaaaaaaaaaaaaa aaaaaaaaaaaaaaaaa aaaaaaaaaaaaaaaaa aaaaaaaaaaaaaaaaa aaaaaaaaaaaaaaaaa aaaaaaaaaaaaaaaaa aaaaaaaaaaaaaaaaa aaaaaaaaaaaaaaaaa aaaaaaaaaaaaaaaaa aaaaaaaaaaaaaaaaa aaaaaaaaaaaaaaaaa aaaaaaaaaaaaaaaaa aaaaaaaaaaaaaaaaa"

/-- C1 (counterexample): a successful run whose final clamp pulls the
tagline start (701) above the composited image bottom (721): the image
box and the tagline box overlap, so the pairwise non-overlap invariant
fails on a run that completes and renders. -/
theorem compose_card_overlap_counterexample :
    compose_card envC1 "t" tagC1 500 184 =
      some (Layout.mk 120 600 150 527 10 10 80 184 290 537 500 184 721 1109 701 1770) ∧
    ¬ (721 + 10 ≤ (701 : ℤ)) :=
  ⟨by decide, by decide⟩

/-- C1 (witness input): a run on roomy inputs. -/
def envW1 : FontEnv := ⟨fun _ _ => (400, 100), fun _ => 70, fun _ => 300⟩

/-- Witness for the amended C1 statement at a concrete successful run. -/
theorem compose_card_surviving_invariant_witness :
    ((compose_card envW1 "t" "hello world" 600 500).getD default).titleBottom +
        ((compose_card envW1 "t" "hello world" 600 500).getD default).g1 ≤
      ((compose_card envW1 "t" "hello world" 600 500).getD default).imageY ∧
    ((compose_card envW1 "t" "hello world" 600 500).getD default).taglineBottom ≤ 1920 - 80 :=
  compose_card_surviving_invariant envW1 "t" "hello world" 600 500 _ (by decide)

/-- C2 (witness input). -/
def envW2 : FontEnv := ⟨fun _ _ => (500, 120), fun _ => 60, fun _ => 200⟩

/-- Witness for C2 at a concrete successful run. -/
theorem compose_card_bottom_constraint_witness :
    ((compose_card envW2 "t" "hi" 340 300).getD default).imageBottom +
        ((compose_card envW2 "t" "hi" 340 300).getD default).g2 +
        ((compose_card envW2 "t" "hi" 340 300).getD default).tagTotal ≤
      1920 - ((compose_card envW2 "t" "hi" 340 300).getD default).bottomPad :=
  compose_card_bottom_constraint envW2 "t" "hi" 340 300 _ (by decide)

/-- Oracle for the no-layout-error counterexample. -/
def envC3 : FontEnv := ⟨fun _ _ => (640, 130), fun _ => 74, fun _ => 640⟩

/-- Thirteen words of seventeen characters, distinct from tagC1. -/
def tagC3 : String :=
  "bbbbbbbbbbbbbbbbb bbbbbbbbbbbbbbbbb bbbbbbbbbbbbbbbbb bbbbbbbbbbbbbbbbb bbbbbbbbbbbbbbbbb bbbbbbbbbbbbbbbbb bbbbbbbbbbbbbbbbb bbbbbbbbbbbbbbbbb bbbbbbbbbbbbbbbbb bbbbbbbbbbbbbbbbb bbbbbbbbbbbbbbbbb bbbbbbbbbbbbbbbbb bbbbbbbbbbbbbbbbb"

/-- C3 (counterexample): a run where the tagline cannot keep even the
minimum 10 pixel gap from the image (tagline top 688 against image bottom
708), yet compose_card completes and renders: no layout-overflow
exception exists anywhere in the script. -/
theorem compose_card_no_error_counterexample :
    compose_card envC3 "t" tagC3 400 188 =
      some (Layout.mk 120 640 130 510 10 10 80 188 340 520 400 188 708 1122 688 1770) ∧
    ¬ (708 + 10 ≤ (688 : ℤ)) :=
  ⟨by decide, by decide⟩

/-- C3 (witness input). -/
def envW4 : FontEnv := ⟨fun _ _ => (200, 110), fun _ => 66, fun _ => 150⟩

/-- Witness for the amended C3 statement: a concrete run whose
illustration fits the padded width and its height budget completes. -/
theorem compose_card_never_layout_fails_witness :
    (compose_card envW4 "t" "up" 10 10).isSome = true :=
  compose_card_never_layout_fails envW4 "t" "up" 10 10 (by decide) (by decide) (by decide)
    (by decide)

/-- C5 (witness input): an extreme 10:1 aspect ratio illustration. -/
def envW3 : FontEnv := ⟨fun _ _ => (300, 140), fun _ => 65, fun _ => 100⟩

/-- Witness for C5 at a concrete successful run. -/
theorem illustration_uniform_scale_witness :
    ((compose_card envW3 "t" "ok" 1000 100).getD default).imageW =
      pyIntQ ((1000 : ℚ) * min ((680 : ℚ) / (1000 : ℚ))
        ((((compose_card envW3 "t" "ok" 1000 100).getD default).maxArtH : ℚ) / (100 : ℚ))) ∧
    ((compose_card envW3 "t" "ok" 1000 100).getD default).imageH =
      pyIntQ ((100 : ℚ) * min ((680 : ℚ) / (1000 : ℚ))
        ((((compose_card envW3 "t" "ok" 1000 100).getD default).maxArtH : ℚ) / (100 : ℚ))) ∧
    ((compose_card envW3 "t" "ok" 1000 100).getD default).imageX =
      Int.fdiv (1080 - ((compose_card envW3 "t" "ok" 1000 100).getD default).imageW) 2 ∧
    ((compose_card envW3 "t" "ok" 1000 100).getD default).imageY =
      ((compose_card envW3 "t" "ok" 1000 100).getD default).titleBottom +
        ((compose_card envW3 "t" "ok" 1000 100).getD default).g1 ∧
    ((compose_card envW3 "t" "ok" 1000 100).getD default).imageBottom =
      ((compose_card envW3 "t" "ok" 1000 100).getD default).imageY +
        ((compose_card envW3 "t" "ok" 1000 100).getD default).imageH :=
  illustration_uniform_scale envW3 "t" "ok" 1000 100 _ (by decide)


/-- C4: whenever the upper-cased title measures wider than the padded
width 680 at the nominal size 120, the title is re-set at the reduced
size int(120 * (680 / measured width)); provided the font measures
linearly (up to the stated inequality) in the size, the re-measured
width fits the available width. -/
theorem title_scaledown_fits :
    ∀ (env : FontEnv) (persona_title : String),
      680 < (env.titleDim (pyUpper persona_title) 120).1 →
      (∀ s : ℕ, s ≤ 120 →
        (env.titleDim (pyUpper persona_title) s).1 * 120 ≤
          s * (env.titleDim (pyUpper persona_title) 120).1) →
      (fitTitle env persona_title).fontSize =
        (pyInt (ratMul (natRat 120)
          (ratDiv (natRat 680) (natRat (env.titleDim (pyUpper persona_title) 120).1)))).toNat ∧
      (fitTitle env persona_title).tw ≤ 680 := by
  intro env persona_title hwide hlin
  have htw0 : 0 < (env.titleDim (pyUpper persona_title) 120).1 := by omega
  have hden : 0 < (ratMul (natRat 120)
      (ratDiv (natRat 680) (natRat (env.titleDim (pyUpper persona_title) 120).1))).den := by
    simp only [ratMul, ratDiv, natRat]
    rw [if_pos (by exact_mod_cast Nat.zero_le _)]
    simpa using htw0
  have htw0Q : (0 : ℚ) < ((env.titleDim (pyUpper persona_title) 120).1 : ℚ) := by
    exact_mod_cast htw0
  have htoRat : (ratMul (natRat 120)
      (ratDiv (natRat 680) (natRat (env.titleDim (pyUpper persona_title) 120).1))).toRat =
      (120 : ℚ) * ((680 : ℚ) / ((env.titleDim (pyUpper persona_title) 120).1 : ℚ)) := by
    rw [toRat_ratMul, toRat_ratDiv, toRat_natRat, toRat_natRat, toRat_natRat]
    norm_num
  have hq0 : (0 : ℚ) ≤ (120 : ℚ) *
      ((680 : ℚ) / ((env.titleDim (pyUpper persona_title) 120).1 : ℚ)) := by positivity
  have hpy : pyInt (ratMul (natRat 120)
      (ratDiv (natRat 680) (natRat (env.titleDim (pyUpper persona_title) 120).1))) =
      pyIntQ ((120 : ℚ) * ((680 : ℚ) / ((env.titleDim (pyUpper persona_title) 120).1 : ℚ))) := by
    rw [pyInt_eq_pyIntQ _ hden, htoRat]
  have hnnZ : 0 ≤ pyInt (ratMul (natRat 120)
      (ratDiv (natRat 680) (natRat (env.titleDim (pyUpper persona_title) 120).1))) := by
    rw [hpy]
    exact pyIntQ_nonneg hq0
  have hvalQ : ((pyInt (ratMul (natRat 120)
      (ratDiv (natRat 680) (natRat (env.titleDim (pyUpper persona_title) 120).1)))) : ℚ) ≤
      (120 : ℚ) * ((680 : ℚ) / ((env.titleDim (pyUpper persona_title) 120).1 : ℚ)) := by
    rw [hpy]
    exact pyIntQ_le_self hq0
  have hlt : (120 : ℚ) * ((680 : ℚ) / ((env.titleDim (pyUpper persona_title) 120).1 : ℚ)) <
      120 := by
    have h1 : (680 : ℚ) / ((env.titleDim (pyUpper persona_title) 120).1 : ℚ) < 1 := by
      rw [div_lt_one htw0Q]
      exact_mod_cast hwide
    nlinarith
  have hle120 : (pyInt (ratMul (natRat 120)
      (ratDiv (natRat 680) (natRat (env.titleDim (pyUpper persona_title) 120).1)))).toNat ≤
      120 := by
    have h2 : ((pyInt (ratMul (natRat 120)
        (ratDiv (natRat 680) (natRat (env.titleDim (pyUpper persona_title) 120).1)))) : ℚ) <
        120 := lt_of_le_of_lt hvalQ hlt
    have h3 : pyInt (ratMul (natRat 120)
        (ratDiv (natRat 680) (natRat (env.titleDim (pyUpper persona_title) 120).1))) < 120 := by
      exact_mod_cast h2
    omega
  have hmul : (pyInt (ratMul (natRat 120)
      (ratDiv (natRat 680) (natRat (env.titleDim (pyUpper persona_title) 120).1)))).toNat *
      (env.titleDim (pyUpper persona_title) 120).1 ≤ 81600 := by
    have hcast : (((pyInt (ratMul (natRat 120)
        (ratDiv (natRat 680) (natRat (env.titleDim (pyUpper persona_title) 120).1)))).toNat : ℚ))
        = ((pyInt (ratMul (natRat 120)
          (ratDiv (natRat 680) (natRat (env.titleDim (pyUpper persona_title) 120).1)))) : ℚ) := by
      exact_mod_cast Int.toNat_of_nonneg hnnZ
    have h4 : (120 : ℚ) * ((680 : ℚ) / ((env.titleDim (pyUpper persona_title) 120).1 : ℚ)) *
        ((env.titleDim (pyUpper persona_title) 120).1 : ℚ) = 81600 := by
      field_simp
      norm_num
    have h5 : (((pyInt (ratMul (natRat 120)
        (ratDiv (natRat 680) (natRat (env.titleDim (pyUpper persona_title) 120).1)))).toNat : ℚ))
        * ((env.titleDim (pyUpper persona_title) 120).1 : ℚ) ≤ 81600 := by
      calc (((pyInt (ratMul (natRat 120)
            (ratDiv (natRat 680) (natRat (env.titleDim (pyUpper persona_title) 120).1)))).toNat
            : ℚ)) * ((env.titleDim (pyUpper persona_title) 120).1 : ℚ)
          ≤ (120 : ℚ) * ((680 : ℚ) / ((env.titleDim (pyUpper persona_title) 120).1 : ℚ)) *
            ((env.titleDim (pyUpper persona_title) 120).1 : ℚ) := by
            rw [hcast]
            exact mul_le_mul_of_nonneg_right hvalQ (le_of_lt htw0Q)
        _ = 81600 := h4
    exact_mod_cast h5
  refine ⟨?_, ?_⟩
  · unfold fitTitle
    rw [if_pos hwide]
  · have hfin := hlin _ hle120
    unfold fitTitle
    rw [if_pos hwide]
    show (env.titleDim (pyUpper persona_title)
      ((pyInt (ratMul (natRat 120)
        (ratDiv (natRat 680) (natRat (env.titleDim (pyUpper persona_title) 120).1)))).toNat)).1
      ≤ 680
    omega

/-- C4 (witness input): a font whose measured width is ten times the
size, hence linear. -/
def envT : FontEnv := ⟨fun _ s => (10 * s, s), fun _ => 70, fun _ => 300⟩

/-- Witness for C4: the 1200 wide title is re-set at size 68 and fits. -/
theorem title_scaledown_fits_witness :
    (fitTitle envT "abc").fontSize =
      (pyInt (ratMul (natRat 120)
        (ratDiv (natRat 680) (natRat (envT.titleDim (pyUpper "abc") 120).1)))).toNat ∧
    (fitTitle envT "abc").tw ≤ 680 :=
  title_scaledown_fits envT "abc" (by decide) (fun s _ => by simp only [envT]; omega)

/-! ## Output slug (source lines 530-532)

persona_title_safe is produced by three steps: drop every character
outside word characters, whitespace and hyphen; replace each maximal run
of whitespace and hyphens by one underscore; strip underscores at the
ends. -/

/-- Kept characters of the first substitution: the class of
characters NOT removed by the regex that deletes everything outside word
characters, whitespace and hyphen. -/
def keepChar (c : Char) : Bool := isWordChar c || pyIsSpace c || c == '-'

/-- Characters collapsed by the second substitution. -/
def isSH (c : Char) : Bool := pyIsSpace c || c == '-'

/-- Worker of the second substitution: the flag records whether the
previous character belonged to a whitespace-hyphen run, so exactly one
underscore is emitted per maximal run and a literal underscore right
after a run survives next to the replacement underscore (as re.sub
leaves it). -/
def collapseSHGo : Bool → List Char → List Char
  | _, [] => []
  | inRun, c :: rest =>
    if isSH c then
      (if inRun then collapseSHGo true rest else '_' :: collapseSHGo true rest)
    else c :: collapseSHGo false rest

/-- Replace each maximal run of whitespace and hyphens by one
underscore. -/
def collapseSH (cs : List Char) : List Char := collapseSHGo false cs

/-- Python str.strip applied with the underscore character. -/
def stripUnd (cs : List Char) : List Char :=
  ((cs.dropWhile (fun c => c == '_')).reverse.dropWhile (fun c => c == '_')).reverse

/-- The output filename component derived from a title,
source lines 530-532. -/
def slugify (title : String) : String :=
  String.mk (stripUnd (collapseSH (title.toList.filter keepChar)))

/-- Modelled from the claim wording for comparison: the same pipeline but
stripping every character that is not alphanumeric, whitespace, or hyphen
(so, unlike the code, also stripping underscores). -/
def slugifySpec (title : String) : String :=
  String.mk (stripUnd (collapseSH
    (title.toList.filter (fun c => c.isAlphanum || pyIsSpace c || c == '-'))))

lemma collapseSHGo_mem (cs : List Char) (b : Bool) (x : Char)
    (h : x ∈ collapseSHGo b cs) : x = '_' ∨ (x ∈ cs ∧ isSH x = false) := by
  induction cs generalizing b with
  | nil => simp [collapseSHGo] at h
  | cons c rest ih =>
    unfold collapseSHGo at h
    split at h
    · split at h
      · rcases ih _ h with h1 | h1
        · left
          exact h1
        · right
          exact ⟨List.mem_cons_of_mem c h1.1, h1.2⟩
      · rcases List.mem_cons.mp h with h1 | h1
        · left
          exact h1
        · rcases ih _ h1 with h2 | h2
          · left
            exact h2
          · right
            exact ⟨List.mem_cons_of_mem c h2.1, h2.2⟩
    · rename_i hc
      rcases List.mem_cons.mp h with h1 | h1
      · right
        subst h1
        exact ⟨List.mem_cons_self x rest, by simpa using hc⟩
      · rcases ih _ h1 with h2 | h2
        · left
          exact h2
        · right
          exact ⟨List.mem_cons_of_mem c h2.1, h2.2⟩

lemma collapseSH_mem (cs : List Char) (x : Char) (h : x ∈ collapseSH cs) :
    x = '_' ∨ (x ∈ cs ∧ isSH x = false) :=
  collapseSHGo_mem cs false x h

lemma stripUnd_subset (cs : List Char) (x : Char) (h : x ∈ stripUnd cs) : x ∈ cs := by
  unfold stripUnd at h
  rw [List.mem_reverse] at h
  have h2 := (List.dropWhile_sublist (fun c => c == '_')).subset h
  rw [List.mem_reverse] at h2
  exact (List.dropWhile_sublist (fun c => c == '_')).subset h2

/-- C7 (counterexample): the claim says underscores are stripped (they
are neither alphanumeric, whitespace nor hyphen), but the code keeps them
because the regex word class contains the underscore: on the title a_b
the code produces a_b while the claimed transformation produces ab. -/
theorem slug_underscore_counterexample :
    slugify "a_b" = "a_b" ∧ slugifySpec "a_b" = "ab" ∧
    slugify "a_b" ≠ slugifySpec "a_b" := by
  refine ⟨by decide, by decide, by decide⟩

/-- C7 (amended): the kept class is the word characters (alphanumeric or
underscore) plus whitespace and hyphen; whitespace and hyphen runs
collapse to one underscore and underscores are trimmed at the ends, so
every character of the output is alphanumeric or an underscore; the title
Crypto Bro! yields Crypto_Bro, surrounding hyphens and blanks are trimmed
away, and a literal underscore next to a collapsed run survives beside
the replacement underscore (a-_b yields a double underscore). -/
theorem slug_amended :
    (∀ s : String, ((slugify s).toList.all (fun c => c.isAlphanum || c == '_')) = true) ∧
    slugify "Crypto Bro!" = "Crypto_Bro" ∧ slugify " -a- " = "a" ∧
    slugify "a-_b" = "a__b" := by
  refine ⟨?_, by decide, by decide, by decide⟩
  intro s
  rw [List.all_eq_true]
  intro c hc
  have hc2 : c ∈ stripUnd (collapseSH (s.toList.filter keepChar)) := by
    simpa [slugify] using hc
  have hc3 := stripUnd_subset _ _ hc2
  rcases collapseSH_mem _ _ hc3 with h1 | h1
  · subst h1
    decide
  · have h4 := List.of_mem_filter h1.1
    have h5 : pyIsSpace c = false ∧ (c == '-') = false := by
      simpa [isSH] using h1.2
    have hw : isWordChar c = true := by
      simpa [keepChar, h5.1, h5.2] using h4
    simpa [isWordChar] using hw

/-! ## Illustration discovery (find_persona_images, source lines 483-500) -/

/-- Glob match for the pattern P*.png: first character P and final four
characters .png (case sensitive, as on a Linux filesystem). -/
def matchesGlobPpng (filename : String) : Bool :=
  (match filename.toList with
   | c :: _ => c == 'P'
   | [] => false) &&
  (match filename.toList.reverse with
   | g :: n :: p :: d :: _ => g == 'g' && n == 'n' && p == 'p' && d == '.'
   | _ => false)

/-- Python str.zfill(3) on the digit group. -/
def zfill3 (ds : List Char) : List Char :=
  if ds.length < 3 then List.replicate (3 - ds.length) '0' ++ ds else ds

/-- Identifier resolution for one globbed filename, source lines 492-498:
the case-insensitive regex that anchors P at the start followed by a
nonempty digit group; on a match the identifier is P plus the zero padded
group. -/
def resolveId (filename : String) : Option String :=
  if matchesGlobPpng filename then
    (match filename.toList with
     | [] => none
     | c :: rest =>
       if (c == 'P' || c == 'p') && !(rest.takeWhile Char.isDigit).isEmpty then
         some (String.mk ('P' :: zfill3 (rest.takeWhile Char.isDigit)))
       else none)
  else none

/-- Lexicographic order on the identifier-filename pairs, as Python
sorted() compares tuples of strings. -/
def pairLe (a b : String × String) : Bool :=
  if a.1 < b.1 then true else if a.1 = b.1 then decide (a.2 ≤ b.2) else false

/-- Insertion into a sorted list. -/
def insertSorted (p : String × String) :
    List (String × String) → List (String × String)
  | [] => [p]
  | q :: qs => if pairLe p q then p :: q :: qs else q :: insertSorted p qs

/-- Insertion sort, modelling Python sorted() on the pair list. -/
def sortPairs (l : List (String × String)) : List (String × String) :=
  l.foldr insertSorted []

/-- Directory scan, source lines 483-500: glob P*.png, resolve each
filename to an identifier, skip files with no match, sort. -/
def find_persona_images (files : List String) : List (String × String) :=
  sortPairs (files.filterMap (fun f => (resolveId f).map (fun pid => (pid, f))))

/-- C6 (counterexample): the fixed prefix of the pattern is P, not R: an
R-prefixed filename resolves to no identifier at all, while the claim
says R007.png and R007_extra_text.png resolve to R007. -/
theorem resolve_id_r_counterexample :
    resolveId "R007.png" = none ∧ resolveId "R007_extra_text.png" = none := by
  refine ⟨by decide, by decide⟩

/-- C6 (amended): with the actual prefix P: P007_extra_text.png and
P007.png both resolve to P007, a short digit group is zero padded, and
X007.png resolves to nothing and is skipped by the scan. -/
theorem resolve_id_amended :
    resolveId "P007_extra_text.png" = some "P007" ∧
    resolveId "P007.png" = some "P007" ∧
    resolveId "X007.png" = none ∧
    resolveId "P7.png" = some "P007" ∧
    find_persona_images ["X007.png", "P007.png"] = [("P007", "P007.png")] := by
  refine ⟨by decide, by decide, by decide, by decide, by decide⟩

/-! ## CSV lookup (lookup_persona_from_csv, source lines 132-139) -/

/-- csv.DictReader row access: row.get(key), none when the column is
absent. -/
def rowGet (row : List (String × String)) (key : String) : Option String :=
  (row.find? (fun kv => kv.1 == key)).map (fun kv => kv.2)

/-- Row lookup, source lines 132-139: scan the rows in file order, return
the stripped Persona and Tagline of the first row whose Persona Number
equals the requested identifier (a missing column compares unequal, as
None does in Python), and raise a ValueError naming identifier and path
when no row matches. -/
def lookup_persona_from_csv (csv_path : String) (rows : List (List (String × String)))
    (persona_number : String) : Except String (String × String) :=
  match rows with
  | [] => Except.error ("Persona Number " ++ persona_number ++ " not found in " ++ csv_path)
  | row :: rest =>
    if rowGet row "Persona Number" = some persona_number then
      Except.ok (pyStrip ((rowGet row "Persona").getD ""),
        pyStrip ((rowGet row "Tagline").getD ""))
    else lookup_persona_from_csv csv_path rest persona_number

/-- C9: lookup returns the stripped fields of the first matching row in
file order (so with duplicate Persona Numbers the earlier row wins), and
reports an error naming the identifier and the path when nothing
matches. -/
theorem lookup_first_match :
    ∀ (csv_path persona_number : String) (rows : List (List (String × String))),
      ((∀ row ∈ rows, rowGet row "Persona Number" ≠ some persona_number) →
        lookup_persona_from_csv csv_path rows persona_number =
          Except.error ("Persona Number " ++ persona_number ++ " not found in " ++ csv_path)) ∧
      (∀ pre row post, rows = pre ++ row :: post →
        (∀ r ∈ pre, rowGet r "Persona Number" ≠ some persona_number) →
        rowGet row "Persona Number" = some persona_number →
        lookup_persona_from_csv csv_path rows persona_number =
          Except.ok (pyStrip ((rowGet row "Persona").getD ""),
            pyStrip ((rowGet row "Tagline").getD ""))) := by
  intro csv_path persona_number rows
  constructor
  · intro hnone
    induction rows with
    | nil => rfl
    | cons row rest ih =>
      unfold lookup_persona_from_csv
      rw [if_neg (hnone row (List.mem_cons_self row rest))]
      exact ih (fun r hr => hnone r (List.mem_cons_of_mem row hr))
  · intro pre row post heq hpre hmatch
    subst heq
    induction pre with
    | nil =>
      unfold lookup_persona_from_csv
      simp only [List.nil_append]
      rw [if_pos hmatch]
    | cons p pre2 ih =>
      unfold lookup_persona_from_csv
      simp only [List.cons_append]
      rw [if_neg (hpre p (List.mem_cons_self p pre2))]
      exact ih (fun r hr => hpre r (List.mem_cons_of_mem p hr))

/-- C9 (witness input): duplicate Persona Numbers and padded fields. -/
def csvW : List (List (String × String)) :=
  [[("Persona Number", "P001"), ("Persona", " Crypto Bro "), ("Tagline", " To the moon ")],
   [("Persona Number", "P002"), ("Persona", " Other "), ("Tagline", "x ")],
   [("Persona Number", "P002"), ("Persona", "Dup"), ("Tagline", "y")]]

/-- Witness for C9: with two P002 rows the first wins and both fields are
stripped. -/
theorem lookup_first_match_witness :
    lookup_persona_from_csv "swipefish_personas.csv" csvW "P002" =
      Except.ok ("Other", "x") := by
  have h := (lookup_first_match "swipefish_personas.csv" "P002" csvW).2
    [[("Persona Number", "P001"), ("Persona", " Crypto Bro "), ("Tagline", " To the moon ")]]
    [("Persona Number", "P002"), ("Persona", " Other "), ("Tagline", "x ")]
    [[("Persona Number", "P002"), ("Persona", "Dup"), ("Tagline", "y")]]
    rfl (by decide) (by decide)
  rw [h]
  rfl

/-! ## Saving (source lines 474-478) -/

/-- Result of the save step: the layout, whether the overwrite message
was printed, and whether the file was written. -/
structure SaveResult where
  layout : Layout
  overwriteLogged : Bool
  saved : Bool
deriving Repr, DecidableEq, Inhabited

/-- Compose then save, source lines 474-478: when the output path exists
the overwrite is logged; img.save is called unconditionally, so the file
is written whether or not it already exists. -/
def composeAndSave (env : FontEnv) (persona_title tagline : String) (aw ah : ℕ)
    (outputExists : Bool) : Option SaveResult :=
  (compose_card env persona_title tagline aw ah).map
    (fun L => SaveResult.mk L outputExists true)

/-- C10: a successful run writes the output unconditionally: the save
happens whether or not the file exists, an existing file only adds the
overwrite log line, and the produced layout does not depend on the
existence of the output file. -/
theorem save_unconditional :
    ∀ (env : FontEnv) (persona_title tagline : String) (aw ah : ℕ)
      (e1 e2 : Bool) (r : SaveResult),
      composeAndSave env persona_title tagline aw ah e1 = some r →
      r.saved = true ∧ r.overwriteLogged = e1 ∧
      composeAndSave env persona_title tagline aw ah e2 =
        some (SaveResult.mk r.layout e2 true) := by
  intro env persona_title tagline aw ah e1 e2 r h
  unfold composeAndSave at h ⊢
  cases hc : compose_card env persona_title tagline aw ah with
  | none =>
    rw [hc] at h
    exact absurd h (by simp)
  | some L =>
    rw [hc] at h
    have h2 : SaveResult.mk L e1 true = r := by simpa using h
    subst h2
    exact ⟨rfl, rfl, rfl⟩

/-- C10 (witness input). -/
def envW5 : FontEnv := ⟨fun _ _ => (450, 90), fun _ => 62, fun _ => 310⟩

/-- Witness for C10 at a concrete run, with the output file present. -/
theorem save_unconditional_witness :
    ((composeAndSave envW5 "t" "go" 300 200 true).getD default).saved = true ∧
    ((composeAndSave envW5 "t" "go" 300 200 true).getD default).overwriteLogged = true ∧
    composeAndSave envW5 "t" "go" 300 200 false =
      some (SaveResult.mk
        ((composeAndSave envW5 "t" "go" 300 200 true).getD default).layout false true) :=
  save_unconditional envW5 "t" "go" 300 200 true false _ (by decide)

/-! ## The driver (source lines 503-550) -/

/-- Outcome of one iteration of the batch loop, as logged next to its
identifier: the Processing line printed at line 522 carries the
identifier, and each failure branch logs and continues. -/
inductive CardOutcome where
  | success (outputName : String)
  | lookupFailed (msg : String)
  | missingIllustration
  | composeFailed
deriving Repr, DecidableEq, Inhabited

/-- The world the driver reads: template presence, directory listing,
CSV contents, fonts, per-file illustration presence and size, and output
file presence. -/
structure World where
  templateExists : Bool
  files : List String
  csvPath : String
  csv : List (List (String × String))
  fontEnv : FontEnv
  illusExists : String → Bool
  artDim : String → ℕ × ℕ
  outExists : String → Bool

/-- One iteration of the batch loop, source lines 518-548: look the
identifier up (a ValueError is caught and logged), skip a missing
illustration, build the output name from the identifier and the title
slug, compose and save (any exception is caught and logged); every
branch falls through to the next identifier. -/
def processOutcome (w : World) (persona_number file : String) : CardOutcome :=
  match lookup_persona_from_csv w.csvPath w.csv persona_number with
  | Except.error e => CardOutcome.lookupFailed e
  | Except.ok pt =>
    if !(w.illusExists file) then CardOutcome.missingIllustration
    else
      match composeAndSave w.fontEnv pt.1 pt.2 (w.artDim file).1 (w.artDim file).2
          (w.outExists (persona_number ++ "_" ++ slugify pt.1 ++ ".png")) with
      | some _ => CardOutcome.success (persona_number ++ "_" ++ slugify pt.1 ++ ".png")
      | none => CardOutcome.composeFailed

/-- Exit status and the per-identifier outcome log of a whole run. -/
structure MainResult where
  exitCode : ℕ
  outcomes : List (String × CardOutcome)
deriving Repr, Inhabited

/-- The driver, source lines 503-550: a missing template raises before
anything else (the interpreter exits with status 1); an empty scan exits
with status 1; otherwise every found image is processed in order and the
run ends with status 0 whatever the per-card outcomes were. -/
def runMain (w : World) : MainResult :=
  if !w.templateExists then MainResult.mk 1 []
  else if (find_persona_images w.files).isEmpty then MainResult.mk 1 []
  else MainResult.mk 0
    ((find_persona_images w.files).map (fun pf => (pf.1, processOutcome w pf.1 pf.2)))

/-- A world with a present persona image but no template. -/
def worldC8 : World :=
  ⟨false, ["P001.png"], "swipefish_personas.csv", [],
    ⟨fun _ _ => (1, 1), fun _ => 1, fun _ => 1⟩, fun _ => true, fun _ => (1, 1), fun _ => false⟩

/-- C8 (counterexample): with the template missing and one input image
present the run exits nonzero although the set of found inputs is
nonempty, so nonzero exit does not happen only when zero inputs were
found. -/
theorem main_exit_counterexample :
    (runMain worldC8).exitCode ≠ 0 ∧ find_persona_images worldC8.files ≠ [] := by
  refine ⟨by decide, by decide⟩

/-- C8 (amended): the run exits nonzero exactly when the template is
missing or no input image was found; when the template exists, every
found identifier gets exactly one logged outcome, in scan order, and no
per-card failure stops the loop. -/
theorem main_exit_amended :
    ∀ w : World,
      ((runMain w).exitCode ≠ 0 ↔
        (w.templateExists = false ∨ find_persona_images w.files = [])) ∧
      (runMain w).outcomes.map Prod.fst =
        (if w.templateExists = true then find_persona_images w.files else []).map Prod.fst := by
  intro w
  unfold runMain
  cases ht : w.templateExists with
  | false => simp
  | true =>
    cases hi : (find_persona_images w.files).isEmpty with
    | true =>
      have hnil := List.isEmpty_iff.mp hi
      simp [ht, hi, hnil]
    | false =>
      have hne : find_persona_images w.files ≠ [] := by
        intro hcon
        rw [hcon] at hi
        exact absurd hi (by simp)
      refine ⟨?_, ?_⟩
      · simp [ht, hi, hne]
      · simp [ht, hi, List.map_map]
